import Mathlib

/-!
Shallow embedding of the LinguistBot translation core (`Bot.py`) and
verification of its specification claims.

The embedding models:
* the static language / model tables (`supported_languages`,
  `language_names`, `translation_models`, Bot.py lines 12-23);
* the engine cache `get_translator` (lines 50-58), with the two
  `from_pretrained` constructions modelled as id-allocating external calls
  that may fail, driven by an oracle;
* the callback-token protocol: minting `callback_data` strings
  (line 114) and parsing them with `query.data.split("|", 2)` (line 129);
* the candidate-resolution loop of `translate_message` (lines 98-120);
* the selection handler `button_handler` (lines 124-163) as a function
  from a callback query and cache state to an outcome, a list of
  user-visible effects, a log of executed translations, and a new state.

Python dicts are modelled as association lists: assignment prepends an
entry and lookup takes the first match, which is observationally the same
as overwrite semantics.
-/

namespace LinguistBot

/-- Association-list lookup with first-match (Python dict) semantics. -/
def dictLookup {α β : Type} [DecidableEq α] : List (α × β) → α → Option β
  | [], _ => none
  | (k, v) :: rest, key => if key = k then some v else dictLookup rest key

/-- The keys of an association list (Python `dict` key set, with possible
repetitions after overwrites; only membership matters). -/
def dictKeys {α β : Type} (d : List (α × β)) : List α := d.map Prod.fst

/-- Bot.py line 12: `supported_languages = ['en', 'uk', 'pl']`. -/
def supported_languages : List String := ["en", "uk", "pl"]

/-- Bot.py line 13: display names of the supported languages. -/
def language_names : List (String × String) :=
  [("en", "English"), ("uk", "Ukrainian"), ("pl", "Polish")]

/-- Bot.py lines 16-23: the `translation_models` dict mapping a
(source, target) pair to the model name used for loading. -/
def translation_models : List ((String × String) × String) :=
  [(("en", "uk"), "Helsinki-NLP/opus-mt-en-uk"),
   (("uk", "en"), "Helsinki-NLP/opus-mt-uk-en"),
   (("en", "pl"), "Helsinki-NLP/opus-mt-en-pl"),
   (("pl", "en"), "Helsinki-NLP/opus-mt-pl-en"),
   (("uk", "pl"), "Helsinki-NLP/opus-mt-uk-pl"),
   (("pl", "uk"), "Helsinki-NLP/opus-mt-pl-uk")]

/-- The supported-pairs set: the key set of `translation_models`. -/
def supportedPairs : List (String × String) := dictKeys translation_models

/-! ## Request tokens

`translate_message` mints `callback_data = f"translate|{source}|{target}"`
(line 114); `button_handler` parses it with
`action, source, target = query.data.split("|", 2)` (line 129), catching
`ValueError` (raised exactly when the split yields fewer than three
fields, since `maxsplit=2` bounds the result at three). -/

/-- Python `str.split('|', maxsplit)` over the character list: at most
`m` splits are performed, each at the leftmost remaining `'|'`. -/
def splitPipeAux : Nat → List Char → List Char → List (List Char)
  | _, acc, [] => [acc.reverse]
  | 0, acc, c :: rest => splitPipeAux 0 (c :: acc) rest
  | m + 1, acc, c :: rest =>
    if c = '|' then acc.reverse :: splitPipeAux m [] rest
    else splitPipeAux (m + 1) (c :: acc) rest

/-- `s.split("|", 2)` from Bot.py line 129. -/
def pySplitPipe2 (s : String) : List String :=
  (splitPipeAux 2 [] s.data).map List.asString

/-- Result of parsing a callback token: either the three delimited fields
or `malformed` (the `ValueError` branch, Bot.py lines 130-132). -/
inductive DecodeResult where
  | malformed
  | fields (action source_lang target_lang : String)
deriving DecidableEq, Repr

/-- Token minting, Bot.py line 114. -/
def RequestToken_encode (source_lang target_lang : String) : String :=
  "translate|" ++ source_lang ++ "|" ++ target_lang

/-- Token parsing, Bot.py lines 128-132: unpacking `split("|", 2)` into
three variables succeeds exactly when the split has three fields. -/
def RequestToken_decode (s : String) : DecodeResult :=
  match pySplitPipe2 s with
  | [action, source_lang, target_lang] => .fields action source_lang target_lang
  | _ => .malformed

/-- All tokens the running system ever mints: `encode` applied to each
supported pair (offers are only built for pairs in `translation_models`,
Bot.py lines 106-116). -/
def allTokens : List String :=
  supportedPairs.map (fun p => RequestToken_encode p.1 p.2)

/-! ## Engine cache

`get_translator` (Bot.py lines 50-58) keeps two module-level dicts,
`model_cache` and `tokenizer_cache`.  Engines and tokenizers are opaque
external objects; we model each `from_pretrained` call as allocating a
fresh id (`nextId`) and consulting an oracle for success or failure
(`MarianTokenizer.from_pretrained` runs first, line 56, then
`MarianMTModel.from_pretrained`, line 57; an exception propagates out of
`get_translator`).  `modelLoads` logs each completed model construction,
so "the engine was loaded once" is a statement about that log. -/

/-- The mutable module-level state of Bot.py lines 26-27, plus the fresh-id
counter and the model-construction log used to state the claims. -/
structure CacheState where
  model_cache : List ((String × String) × Nat)
  tokenizer_cache : List ((String × String) × Nat)
  nextId : Nat
  modelLoads : List (String × String)
deriving DecidableEq, Repr

/-- The state at interpreter start: both caches empty (Bot.py lines 26-27). -/
def initState : CacheState :=
  { model_cache := [], tokenizer_cache := [], nextId := 0, modelLoads := [] }

/-- Result of a `get_translator` call: the `(model, tokenizer)` pair, the
`(None, None)` unsupported-pair return, or an exception escaping the call. -/
inductive GTResult where
  | engines (model tokenizer : Nat)
  | noModel
  | raised
deriving DecidableEq, Repr

/-- Bot.py lines 50-58.  `oracle n = true` means the `n`-th external
`from_pretrained` call in the process succeeds. -/
def get_translator (oracle : Nat → Bool) (source_lang target_lang : String)
    (st : CacheState) : GTResult × CacheState :=
  let key := (source_lang, target_lang)
  match dictLookup translation_models key with
  | none => (.noModel, st)
  | some _model_name =>
    match dictLookup st.model_cache key with
    | some model =>
      match dictLookup st.tokenizer_cache key with
      | some tokenizer => (.engines model tokenizer, st)
      | none => (.raised, st)
    | none =>
      if oracle st.nextId then
        let tokId := st.nextId
        let st1 : CacheState :=
          { st with tokenizer_cache := (key, tokId) :: st.tokenizer_cache,
                    nextId := st.nextId + 1 }
        if oracle st1.nextId then
          let modelId := st1.nextId
          let st2 : CacheState :=
            { st1 with model_cache := (key, modelId) :: st1.model_cache,
                       nextId := st1.nextId + 1,
                       modelLoads := st1.modelLoads ++ [key] }
          (.engines modelId tokId, st2)
        else (.raised, { st1 with nextId := st1.nextId + 1 })
      else (.raised, { st with nextId := st.nextId + 1 })

/-- A sequence of `get_translator` calls, accumulating cache state. -/
def runCalls (oracle : Nat → Bool) (calls : List (String × String))
    (st : CacheState) : CacheState :=
  calls.foldl (fun s c => (get_translator oracle c.1 c.2 s).2) st

/-! ## The selection handler

`button_handler` (Bot.py lines 124-163).  User-visible outputs are
modelled as a list of effects, each carrying its recipient;
`context.bot.send_message(chat_id=query.from_user.id, ...)` (lines
160-163) is a message to the clicking user's private chat, and
`query.answer(...)` is inherently addressed to the clicking user. -/

/-- Where an outbound message or alert goes. -/
inductive Recipient where
  | user (id : Nat)
  | sharedConversation
deriving DecidableEq, Repr

/-- User-visible effects of one handler run. -/
inductive Effect where
  | answerQuery (r : Recipient)
  | answerAlert (r : Recipient) (text : String)
  | sendMessage (r : Recipient) (text : String)
deriving DecidableEq, Repr

/-- The recipient of an effect. -/
def Effect.recipient : Effect → Recipient
  | .answerQuery r => r
  | .answerAlert r _ => r
  | .sendMessage r _ => r

/-- The parts of the callback update that `button_handler` reads.
`original_text` is the text of `query.message.reply_to_message` when that
message exists and its text is non-empty (the combined guard of line 135);
`chat_username` is `query.message.chat.username` when non-empty. -/
structure CallbackQuery where
  data : String
  from_user_id : Nat
  original_text : Option String
  chat_username : Option String
  original_message_id : Nat
deriving DecidableEq, Repr

/-- Whether the handler coroutine completed or an exception escaped it. -/
inductive Outcome where
  | completed
  | raisedOut
deriving DecidableEq, Repr

/-- Result of one `button_handler` run: outcome, user-visible effects in
order, the translations actually executed (pair and input text), and the
cache state afterwards. -/
structure HandlerRun where
  outcome : Outcome
  effects : List Effect
  translations_run : List ((String × String) × String)
  state : CacheState
deriving DecidableEq, Repr

/-- Bot.py lines 124-163.  `translate` is the opaque
tokenizer/`model.generate`/decode pipeline of lines 146-148, a pure
function of the model id, tokenizer id and input text. -/
def button_handler (oracle : Nat → Bool) (translate : Nat → Nat → String → String)
    (q : CallbackQuery) (st : CacheState) : HandlerRun :=
  let me := Recipient.user q.from_user_id
  let ack := Effect.answerQuery me
  match RequestToken_decode q.data with
  | .malformed =>
    ⟨.completed, [ack, .answerAlert me "Error processing request."], [], st⟩
  | .fields _action source_lang target_lang =>
    match q.original_text with
    | none =>
      ⟨.completed, [ack, .answerAlert me "Original message not found."], [], st⟩
    | some text =>
      match get_translator oracle source_lang target_lang st with
      | (.noModel, st1) =>
        ⟨.completed,
          [ack, .answerAlert me "No model available for this language pair."],
          [], st1⟩
      | (.raised, st1) => ⟨.raisedOut, [ack], [], st1⟩
      | (.engines model tokenizer, st1) =>
        let translated_text := translate model tokenizer text
        let msg :=
          match q.chat_username with
          | some username =>
            "Original: https://t.me/" ++ username ++ "/" ++
              toString q.original_message_id ++ "\n" ++ text ++
              "\n\n(" ++ source_lang ++ " -> " ++ target_lang ++ "): " ++
              translated_text
          | none =>
            "Original: " ++ text ++ "\n\n(" ++ source_lang ++ " -> " ++
              target_lang ++ "): " ++ translated_text
        ⟨.completed, [ack, .sendMessage me msg],
          [((source_lang, target_lang), text)], st1⟩

/-! ## Candidate resolution

`translate_message` (Bot.py lines 82-120): after detecting the source
language, the loop of lines 101-116 walks the `user_preferences` snapshot
and builds at most one button per distinct target, tracked by the
`seen_targets` set.  `detect` is an external capability, passed in as the
`detected` argument (`none` models the exception of line 91). -/

/-- One inline keyboard button: the target it offers, its label, and the
token it carries (Bot.py lines 110-116). -/
structure CandidateOffer where
  target_lang : String
  label : String
  callback_data : String
deriving DecidableEq, Repr

/-- `language_names.get(target_lang, target_lang)`, Bot.py line 110. -/
def language_name (target_lang : String) : String :=
  (dictLookup language_names target_lang).getD target_lang

/-- The button-building loop of Bot.py lines 101-116, with the
`seen_targets` set threaded through. -/
def buildButtons (source_lang : String) :
    List (Nat × String) → List String → List CandidateOffer
  | [], _ => []
  | (_user_id, target_lang) :: rest, seen_targets =>
    if source_lang = target_lang then buildButtons source_lang rest seen_targets
    else if target_lang ∈ seen_targets then
      buildButtons source_lang rest seen_targets
    else if (dictLookup translation_models (source_lang, target_lang)).isNone then
      buildButtons source_lang rest seen_targets
    else
      { target_lang := target_lang,
        label := "Translate to " ++ language_name target_lang,
        callback_data := RequestToken_encode source_lang target_lang } ::
        buildButtons source_lang rest (target_lang :: seen_targets)

/-- The CandidateResolver component: the guard of Bot.py line 94 followed
by the loop of lines 101-116. -/
def CandidateResolver_resolve (source_lang : String)
    (user_preferences : List (Nat × String)) : List CandidateOffer :=
  if source_lang ∈ supported_languages then
    buildButtons source_lang user_preferences []
  else []

/-- Bot.py lines 82-120.  Returns the offer message sent in reply
(`some buttons`, line 120) or `none` when no message is sent.  `text` is
`message.text` (`none` for a non-text message; the empty string is also
rejected by `if not text`, line 86). -/
def translate_message (text : Option String) (from_user_is_bot : Bool)
    (detected : Option String) (user_preferences : List (Nat × String)) :
    Option (List CandidateOffer) :=
  match text with
  | none => none
  | some text =>
    if text = "" ∨ from_user_is_bot then none
    else
      match detected with
      | none => none
      | some source_lang =>
        if source_lang ∈ supported_languages then
          let buttons := buildButtons source_lang user_preferences []
          if buttons.isEmpty then none else some buttons
        else none

/-! ## Reference definitions used to state order and dedup claims -/

/-- Keep the first occurrence of each element not already in `seen`
(reference formulation of the dedup policy in spec 4.3). -/
def dedupFirst : List String → List String → List String
  | [], _ => []
  | t :: rest, seen =>
    if t ∈ seen then dedupFirst rest seen
    else t :: dedupFirst rest (t :: seen)

/-- The eligibility test of spec 4.3 step 2, as a Boolean predicate on a
target language. -/
def eligibleTarget (source_lang target_lang : String) : Bool :=
  !(source_lang = target_lang : Bool) &&
    !(dictLookup translation_models (source_lang, target_lang)).isNone

/-- The state after a successful fresh load of the engine for `(s, t)`:
tokenizer then model constructed, caches extended, one load logged. -/
def loadedState (s t : String) (st : CacheState) : CacheState :=
  { model_cache := ((s, t), st.nextId + 1) :: st.model_cache,
    tokenizer_cache := ((s, t), st.nextId) :: st.tokenizer_cache,
    nextId := st.nextId + 2,
    modelLoads := st.modelLoads ++ [(s, t)] }

/-- The cache invariant of C10: cached keys are supported pairs, and a
cached model always has its matching cached tokenizer. -/
def cacheInv (st : CacheState) : Prop :=
  (∀ k ∈ dictKeys st.model_cache, k ∈ supportedPairs) ∧
  (∀ k ∈ dictKeys st.tokenizer_cache, k ∈ supportedPairs) ∧
  (∀ k ∈ dictKeys st.model_cache, k ∈ dictKeys st.tokenizer_cache)

/-- Bookkeeping invariant for the load log: no pair is logged twice, and
every logged pair has a resident model. -/
def goodLoads (st : CacheState) : Prop :=
  st.modelLoads.Nodup ∧ ∀ k ∈ st.modelLoads, k ∈ dictKeys st.model_cache

end LinguistBot

namespace LinguistBot

/-! ## Association-list lemmas -/

theorem dictLookup_isSome_iff {α β : Type} [DecidableEq α]
    (d : List (α × β)) (k : α) :
    (dictLookup d k).isSome ↔ k ∈ dictKeys d := by
  induction d with
  | nil => simp [dictLookup, dictKeys]
  | cons e rest ih =>
    obtain ⟨k0, v0⟩ := e
    by_cases h : k = k0 <;> simp [dictLookup, dictKeys, h] at ih ⊢
    exact ih

theorem dictLookup_eq_none_iff {α β : Type} [DecidableEq α]
    (d : List (α × β)) (k : α) :
    dictLookup d k = none ↔ k ∉ dictKeys d := by
  rw [← dictLookup_isSome_iff]
  cases dictLookup d k <;> simp

theorem dictLookup_mem_some {α β : Type} [DecidableEq α]
    (d : List (α × β)) (k : α) (h : k ∈ dictKeys d) :
    ∃ v, dictLookup d k = some v := by
  rw [← dictLookup_isSome_iff] at h
  cases hv : dictLookup d k with
  | none => rw [hv] at h; simp at h
  | some v => exact ⟨v, rfl⟩

/-- Decoding an encoded supported pair returns exactly that pair
(helper, shared by several claims). -/
theorem decode_encode_of_mem (s t : String) (h : (s, t) ∈ supportedPairs) :
    RequestToken_decode (RequestToken_encode s t) = .fields "translate" s t := by
  fin_cases h <;> decide

/-- `split('|', m)` yields between 1 and `m + 1` fields. -/
theorem splitPipeAux_length_le (l : List Char) :
    ∀ (m : Nat) (acc : List Char),
      (splitPipeAux m acc l).length ≤ m + 1 ∧
        1 ≤ (splitPipeAux m acc l).length := by
  induction l with
  | nil => intro m acc; simp [splitPipeAux]
  | cons c rest ih =>
    intro m acc
    match m with
    | 0 => simpa [splitPipeAux] using ih 0 (c :: acc)
    | m + 1 =>
      by_cases hc : c = '|'
      · have h := ih m []
        simp [splitPipeAux, hc]
        omega
      · simpa [splitPipeAux, hc] using ih (m + 1) (c :: acc)

/-- A selection whose token decodes to fields with an unsupported pair is
answered with the `No model available` alert only, leaving the cache
untouched (helper, shared by several claims). -/
theorem button_handler_not_supported (oracle : Nat → Bool)
    (translate : Nat → Nat → String → String) (q : CallbackQuery)
    (st : CacheState) (a s t txt : String)
    (hd : RequestToken_decode q.data = .fields a s t)
    (ho : q.original_text = some txt)
    (hn : (s, t) ∉ supportedPairs) :
    button_handler oracle translate q st =
      ⟨.completed, [.answerQuery (.user q.from_user_id),
        .answerAlert (.user q.from_user_id)
          "No model available for this language pair."],
        [], st⟩ := by
  have hl : dictLookup translation_models (s, t) = none :=
    (dictLookup_eq_none_iff _ _).mpr hn
  simp only [button_handler, hd, ho, get_translator, hl]

/-- Every callback token carried by an emitted offer is in `allTokens`
(helper for C1). -/
theorem offer_tokens_minted (source_lang : String) :
    ∀ (prefs : List (Nat × String)) (seen : List String)
      (o : CandidateOffer), o ∈ buildButtons source_lang prefs seen →
      o.callback_data ∈ allTokens := by
  intro prefs
  induction prefs with
  | nil => intro seen o ho; simp [buildButtons] at ho
  | cons p rest ih =>
    intro seen o ho
    obtain ⟨u, target_lang⟩ := p
    by_cases h1 : source_lang = target_lang
    · exact ih seen o (by simpa [buildButtons, h1] using ho)
    · by_cases h2 : target_lang ∈ seen
      · exact ih seen o (by simpa [buildButtons, h1, h2] using ho)
      · by_cases h3 : (dictLookup translation_models (source_lang, target_lang)).isNone
        · exact ih seen o (by simpa [buildButtons, h1, h2, h3] using ho)
        · rw [buildButtons, if_neg h1, if_neg h2, if_neg h3] at ho
          rcases List.mem_cons.mp ho with hhead | htail
          · have hmem : (source_lang, target_lang) ∈ supportedPairs := by
              rw [supportedPairs, ← dictLookup_isSome_iff]
              cases hv : (dictLookup translation_models
                  (source_lang, target_lang)) with
              | none => exact absurd (by simp [hv]) h3
              | some v => simp [hv]
            subst hhead
            exact List.mem_map.mpr ⟨(source_lang, target_lang), hmem, rfl⟩
          · exact ih (target_lang :: seen) o htail

/-- C1 (corrected): the claim that `decode` returns `Malformed` on every
string not produced by `encode` fails.  `"translate|de|fr"` is not among
the tokens the system mints (and `"x|en|uk"` is not either), yet both
decode to fields rather than `Malformed`: field values are not validated
at decode time. -/
theorem decode_unknown_codes_counterexample :
    "translate|de|fr" ∉ allTokens ∧
      RequestToken_decode "translate|de|fr" =
        .fields "translate" "de" "fr" ∧
      "x|en|uk" ∉ allTokens ∧
      RequestToken_decode "x|en|uk" = .fields "x" "en" "uk" := by
  decide

/-- C1 (amended): `RequestToken_decode` is total and returns `Malformed`
exactly when the callback string splits into fewer than three
`|`-delimited fields; tokens whose three fields carry an unsupported or
unknown language pair decode to their fields and are rejected only later,
by the engine lookup, with the `No model available` alert and no state
change; and every token the system actually mints is `encode` of a
supported pair. -/
theorem decode_malformed_characterization :
    (∀ str : String,
      RequestToken_decode str = .malformed ↔ (pySplitPipe2 str).length < 3) ∧
    (∀ (oracle : Nat → Bool) (translate : Nat → Nat → String → String)
      (q : CallbackQuery) (st : CacheState) (a s t txt : String),
      RequestToken_decode q.data = .fields a s t →
      q.original_text = some txt →
      (s, t) ∉ supportedPairs →
      button_handler oracle translate q st =
        ⟨.completed, [.answerQuery (.user q.from_user_id),
          .answerAlert (.user q.from_user_id)
            "No model available for this language pair."],
          [], st⟩) ∧
    (∀ (source_lang : String) (prefs : List (Nat × String))
      (o : CandidateOffer), o ∈ CandidateResolver_resolve source_lang prefs →
      o.callback_data ∈ allTokens) := by
  refine ⟨?_, ?_, ?_⟩
  · intro str
    have hb := splitPipeAux_length_le str.data 2 []
    have hlen : (pySplitPipe2 str).length ≤ 3 := by
      simpa [pySplitPipe2] using hb.1
    rcases hp : pySplitPipe2 str with _ | ⟨a, _ | ⟨b, _ | ⟨c, _ | rest⟩⟩⟩
    · simp [RequestToken_decode, hp]
    · simp [RequestToken_decode, hp]
    · simp [RequestToken_decode, hp]
    · simp [RequestToken_decode, hp]
    · rw [hp] at hlen
      simp at hlen
  · intro oracle translate q st a s t txt hd ho hn
    exact button_handler_not_supported oracle translate q st a s t txt hd ho hn
  · intro source_lang prefs o ho
    unfold CandidateResolver_resolve at ho
    by_cases hs : source_lang ∈ supported_languages
    · rw [if_pos hs] at ho
      exact offer_tokens_minted source_lang prefs [] o ho
    · rw [if_neg hs] at ho
      simp at ho

/-- C1 witness: the characterization applied at concrete inputs. -/
theorem decode_malformed_characterization_witness :
    RequestToken_decode "x|y" = .malformed ∧
      button_handler (fun _ => true) (fun _ _ s => s)
        ⟨"translate|de|fr", 1, some "hi", none, 0⟩ initState =
        ⟨.completed, [.answerQuery (.user 1),
          .answerAlert (.user 1)
            "No model available for this language pair."],
          [], initState⟩ := by
  constructor
  · exact (decode_malformed_characterization.1 "x|y").mpr (by decide)
  · exact decode_malformed_characterization.2.1 (fun _ => true)
      (fun _ _ s => s) ⟨"translate|de|fr", 1, some "hi", none, 0⟩ initState
      "translate" "de" "fr" "hi" (by decide) rfl (by decide)

/-- C3 (confirmed): for every (source, target) pair in the supported-pairs
set, decoding the encoded token yields back exactly that pair. -/
theorem RequestToken_roundtrip (s t : String) (h : (s, t) ∈ supportedPairs) :
    RequestToken_decode (RequestToken_encode s t) =
      .fields "translate" s t :=
  decode_encode_of_mem s t h

/-- C3 witness: the round trip evaluated at the pair (en, uk). -/
theorem RequestToken_roundtrip_witness :
    ("en", "uk") ∈ supportedPairs ∧
      RequestToken_decode (RequestToken_encode "en" "uk") =
        .fields "translate" "en" "uk" :=
  ⟨by decide, RequestToken_roundtrip "en" "uk" (by decide)⟩

/-- C6 (confirmed): for a pair outside the supported-pairs set,
`get_translator` returns the `(None, None)` result and the state — caches,
id counter and load log — is exactly the input state. -/
theorem get_translator_not_supported (oracle : Nat → Bool) (s t : String)
    (st : CacheState) (h : (s, t) ∉ supportedPairs) :
    get_translator oracle s t st = (.noModel, st) := by
  have hl : dictLookup translation_models (s, t) = none :=
    (dictLookup_eq_none_iff _ _).mpr h
  simp only [get_translator, hl]

/-- C6 witness: the unsupported pair (en, en) against the empty cache. -/
theorem get_translator_not_supported_witness :
    ("en", "en") ∉ supportedPairs ∧
      get_translator (fun _ => true) "en" "en" initState =
        (.noModel, initState) :=
  ⟨by decide, get_translator_not_supported (fun _ => true) "en" "en"
    initState (by decide)⟩

/-! ## Candidate resolution: dedup, filtering and ordering (C4, C8) -/

/-- `dedupFirst` emits no duplicates and nothing already seen. -/
theorem dedupFirst_nodup : ∀ (l seen : List String),
    (dedupFirst l seen).Nodup ∧ ∀ x ∈ dedupFirst l seen, x ∉ seen := by
  intro l
  induction l with
  | nil => intro seen; simp [dedupFirst]
  | cons t rest ih =>
    intro seen
    by_cases h : t ∈ seen
    · simpa [dedupFirst, h] using ih seen
    · obtain ⟨hnd, hni⟩ := ih (t :: seen)
      refine ⟨?_, ?_⟩
      · rw [dedupFirst, if_neg h]
        exact List.nodup_cons.mpr
          ⟨fun hx => (hni t hx) (List.mem_cons_self t seen), hnd⟩
      · intro x hx
        rw [dedupFirst, if_neg h] at hx
        rcases List.mem_cons.mp hx with rfl | hx1
        · exact h
        · exact fun hxseen => hni x hx1 (List.mem_cons_of_mem _ hxseen)

/-- Every element `dedupFirst` emits comes from the input list. -/
theorem dedupFirst_mem : ∀ (l seen : List String) (x : String),
    x ∈ dedupFirst l seen → x ∈ l := by
  intro l
  induction l with
  | nil => intro seen x hx; simp [dedupFirst] at hx
  | cons t rest ih =>
    intro seen x hx
    by_cases h : t ∈ seen
    · rw [dedupFirst, if_pos h] at hx
      exact List.mem_cons_of_mem _ (ih seen x hx)
    · rw [dedupFirst, if_neg h] at hx
      rcases List.mem_cons.mp hx with rfl | hx1
      · exact List.mem_cons_self _ _
      · exact List.mem_cons_of_mem _ (ih (t :: seen) x hx1)

/-- The targets emitted by the button loop are exactly the preference
snapshot's targets, filtered by eligibility and deduplicated keeping the
first occurrence, in iteration order. -/
theorem buildButtons_targets (source_lang : String) :
    ∀ (prefs : List (Nat × String)) (seen : List String),
      (buildButtons source_lang prefs seen).map CandidateOffer.target_lang =
        dedupFirst ((prefs.map Prod.snd).filter (eligibleTarget source_lang))
          seen := by
  intro prefs
  induction prefs with
  | nil => intro seen; simp [buildButtons, dedupFirst]
  | cons p rest ih =>
    intro seen
    obtain ⟨u, target_lang⟩ := p
    by_cases h1 : source_lang = target_lang
    · have he : eligibleTarget source_lang target_lang = false := by
        simp [eligibleTarget, h1]
      rw [buildButtons, if_pos h1]
      simpa [he] using ih seen
    · by_cases h3 :
        (dictLookup translation_models (source_lang, target_lang)).isNone
      · have he : eligibleTarget source_lang target_lang = false := by
          simp [eligibleTarget, h1, h3]
        by_cases h2 : target_lang ∈ seen
        · rw [buildButtons, if_neg h1, if_pos h2]
          simpa [he] using ih seen
        · rw [buildButtons, if_neg h1, if_neg h2, if_pos h3]
          simpa [he] using ih seen
      · have he : eligibleTarget source_lang target_lang = true := by
          cases hv : dictLookup translation_models (source_lang, target_lang) with
          | none => exact absurd (by simp [hv]) h3
          | some v => simp [eligibleTarget, h1, hv]
        by_cases h2 : target_lang ∈ seen
        · rw [buildButtons, if_neg h1, if_pos h2, ih seen]
          simp [List.filter_cons, he, dedupFirst, h2]
        · rw [buildButtons, if_neg h1, if_neg h2, if_neg h3]
          simp only [List.map_cons]
          rw [ih (target_lang :: seen)]
          simp [List.filter_cons, he, dedupFirst, h2]

/-- C4 (confirmed): for a supported source language, the resolver emits at
most one offer per distinct target (first occurrence in snapshot order
wins), never the source itself as target, never a pair outside the
supported-pairs set, and the emitted target order is the snapshot
iteration order after those filters. -/
theorem resolve_dedup_order (source_lang : String)
    (prefs : List (Nat × String))
    (hs : source_lang ∈ supported_languages) :
    ((CandidateResolver_resolve source_lang prefs).map
        CandidateOffer.target_lang).Nodup ∧
    (∀ o ∈ CandidateResolver_resolve source_lang prefs,
      o.target_lang ≠ source_lang) ∧
    (∀ o ∈ CandidateResolver_resolve source_lang prefs,
      (source_lang, o.target_lang) ∈ supportedPairs) ∧
    (CandidateResolver_resolve source_lang prefs).map
        CandidateOffer.target_lang =
      dedupFirst ((prefs.map Prod.snd).filter (eligibleTarget source_lang))
        [] := by
  have hres : CandidateResolver_resolve source_lang prefs =
      buildButtons source_lang prefs [] := by
    rw [CandidateResolver_resolve, if_pos hs]
  have heq := buildButtons_targets source_lang prefs []
  have hel : ∀ o ∈ CandidateResolver_resolve source_lang prefs,
      eligibleTarget source_lang o.target_lang = true := by
    intro o ho
    have hmt : o.target_lang ∈ (CandidateResolver_resolve source_lang
        prefs).map CandidateOffer.target_lang :=
      List.mem_map.mpr ⟨o, ho, rfl⟩
    rw [hres, heq] at hmt
    have := dedupFirst_mem _ _ _ hmt
    exact (List.mem_filter.mp this).2
  refine ⟨?_, ?_, ?_, ?_⟩
  · rw [hres, heq]
    exact (dedupFirst_nodup _ _).1
  · intro o ho
    have := hel o ho
    simp [eligibleTarget] at this
    exact fun hc => this.1 hc.symm
  · intro o ho
    have := hel o ho
    simp [eligibleTarget] at this
    rw [supportedPairs, ← dictLookup_isSome_iff]
    cases hv : dictLookup translation_models (source_lang, o.target_lang) with
    | none => rw [hv] at this; simp at this
    | some v => simp
  · rw [hres, heq]

/-- C4 witness: the resolver on source `en` with preferences
`uk, pl, uk, en, de`: targets are `[uk, pl]` in snapshot order. -/
theorem resolve_dedup_order_witness :
    "en" ∈ supported_languages ∧
      (CandidateResolver_resolve "en"
          [(1, "uk"), (2, "pl"), (3, "uk"), (4, "en"), (5, "de")]).map
          CandidateOffer.target_lang =
        dedupFirst ((([(1, "uk"), (2, "pl"), (3, "uk"), (4, "en"),
          (5, "de")] : List (Nat × String)).map Prod.snd).filter
          (eligibleTarget "en")) [] :=
  ⟨by decide,
    (resolve_dedup_order "en"
      [(1, "uk"), (2, "pl"), (3, "uk"), (4, "en"), (5, "de")]
      (by decide)).2.2.2⟩

/-- C8 (confirmed): an unsupported detected source yields the empty
candidate sequence, and whenever resolution is empty no offer message is
sent at all. -/
theorem no_offers_when_ineligible :
    (∀ (source_lang : String) (prefs : List (Nat × String)),
      source_lang ∉ supported_languages →
      CandidateResolver_resolve source_lang prefs = []) ∧
    (∀ (text : String) (from_user_is_bot : Bool) (source_lang : String)
      (prefs : List (Nat × String)),
      CandidateResolver_resolve source_lang prefs = [] →
      translate_message (some text) from_user_is_bot (some source_lang)
        prefs = none) := by
  constructor
  · intro source_lang prefs h
    rw [CandidateResolver_resolve, if_neg h]
  · intro text bot source_lang prefs h
    simp only [translate_message]
    by_cases hguard : text = "" ∨ bot = true
    · rw [if_pos hguard]
    · rw [if_neg hguard]
      by_cases hs : source_lang ∈ supported_languages
      · rw [if_pos hs]
        rw [CandidateResolver_resolve, if_pos hs] at h
        simp [h]
      · rw [if_neg hs]

/-- C8 witness: German source against an `en`-preferring user: no offers,
no message. -/
theorem no_offers_when_ineligible_witness :
    CandidateResolver_resolve "de" [(1, "en")] = [] ∧
      translate_message (some "Guten Tag") false (some "de") [(1, "en")] =
        none := by
  have h1 := no_offers_when_ineligible.1 "de" [(1, "en")] (by decide)
  exact ⟨h1, no_offers_when_ineligible.2 "Guten Tag" false "de" [(1, "en")] h1⟩

/-! ## Engine cache: single load, residency, invariants (C5, C10) -/

/-- Helper: a resident engine is returned as-is with no state change. -/
theorem get_translator_resident (oracle : Nat → Bool) (s t : String)
    (st : CacheState) (m tok : Nat)
    (hsup : (s, t) ∈ supportedPairs)
    (hm : dictLookup st.model_cache (s, t) = some m)
    (htok : dictLookup st.tokenizer_cache (s, t) = some tok) :
    get_translator oracle s t st = (.engines m tok, st) := by
  obtain ⟨name, hname⟩ := dictLookup_mem_some translation_models (s, t) hsup
  simp only [get_translator, hname, hm, htok]

/-- Helper: a fresh load with both external constructions succeeding
returns the two new ids and extends caches and load log. -/
theorem get_translator_fresh (s t : String) (st : CacheState)
    (hsup : (s, t) ∈ supportedPairs)
    (hm : dictLookup st.model_cache (s, t) = none) :
    get_translator (fun _ => true) s t st =
      (.engines (st.nextId + 1) st.nextId, loadedState s t st) := by
  obtain ⟨name, hname⟩ := dictLookup_mem_some translation_models (s, t) hsup
  simp [get_translator, hname, hm, loadedState]

/-- Helper: a call that hands out an engine leaves a state from which the
same call hands out the same engine again, without any further load. -/
theorem get_translator_stable (oracle oracle2 : Nat → Bool) (s t : String)
    (st st1 : CacheState) (m tok : Nat)
    (h : get_translator oracle s t st = (.engines m tok, st1)) :
    get_translator oracle2 s t st1 = (.engines m tok, st1) := by
  cases hname : dictLookup translation_models (s, t) with
  | none => simp only [get_translator, hname] at h; simp at h
  | some name =>
    have hsup : (s, t) ∈ supportedPairs := by
      rw [supportedPairs, ← dictLookup_isSome_iff, hname]; simp
    cases hm : dictLookup st.model_cache (s, t) with
    | some m0 =>
      cases htok : dictLookup st.tokenizer_cache (s, t) with
      | some tok0 =>
        simp only [get_translator, hname, hm, htok, Prod.mk.injEq] at h
        obtain ⟨he, hst⟩ := h
        injection he with hem het
        subst hem; subst het; subst hst
        exact get_translator_resident oracle2 s t st _ _ hsup hm htok
      | none =>
        simp only [get_translator, hname, hm, htok] at h
        simp at h
    | none =>
      simp only [get_translator, hname, hm] at h
      by_cases h1 : oracle st.nextId = true
      · rw [if_pos h1] at h
        by_cases h2 : oracle (st.nextId + 1) = true
        · rw [if_pos h2] at h
          rw [Prod.mk.injEq] at h
          obtain ⟨he, hst⟩ := h
          injection he with hem het
          subst hem; subst het
          refine get_translator_resident oracle2 s t st1 _ _ hsup ?_ ?_ <;>
            rw [← hst] <;> simp [dictLookup]
        · rw [if_neg h2] at h; simp at h
      · rw [if_neg h1] at h; simp at h

/-- Helper: `get_translator` preserves the load-log bookkeeping
invariant. -/
theorem get_translator_goodLoads (oracle : Nat → Bool) (s t : String)
    (st : CacheState) (h : goodLoads st) :
    goodLoads (get_translator oracle s t st).2 := by
  obtain ⟨hnd, hmem⟩ := h
  cases hname : dictLookup translation_models (s, t) with
  | none => simp only [get_translator, hname]; exact ⟨hnd, hmem⟩
  | some name =>
    cases hm : dictLookup st.model_cache (s, t) with
    | some m0 =>
      cases htok : dictLookup st.tokenizer_cache (s, t) with
      | some tok0 =>
        simp only [get_translator, hname, hm, htok]; exact ⟨hnd, hmem⟩
      | none =>
        simp only [get_translator, hname, hm, htok]; exact ⟨hnd, hmem⟩
    | none =>
      simp only [get_translator, hname, hm]
      by_cases h1 : oracle st.nextId = true
      · rw [if_pos h1]
        by_cases h2 : oracle (st.nextId + 1) = true
        · rw [if_pos h2]
          have hnotin : (s, t) ∉ st.modelLoads := by
            intro hin
            have := hmem _ hin
            rw [dictLookup_eq_none_iff] at hm
            exact hm this
          constructor
          · simp [List.nodup_append, hnd, hnotin]
          · intro k hk
            rcases List.mem_append.mp hk with hk1 | hk1
            · exact List.mem_cons_of_mem _ (hmem k hk1)
            · simp at hk1
              subst hk1
              exact List.mem_cons_self _ _
        · rw [if_neg h2]; exact ⟨hnd, hmem⟩
      · rw [if_neg h1]; exact ⟨hnd, hmem⟩

/-- Helper: a duplicate-free list counts every element at most once. -/
theorem count_le_one_of_nodup {α : Type} [BEq α] [LawfulBEq α]
    (l : List α) (h : l.Nodup) (a : α) : l.count a ≤ 1 := by
  induction l with
  | nil => simp
  | cons b l ih =>
    obtain ⟨hb, hl⟩ := List.nodup_cons.mp h
    rw [List.count_cons]
    by_cases hba : b = a
    · subst hba
      have hz : l.count b = 0 := List.count_eq_zero.mpr hb
      simp [hz]
    · have hf : (b == a) = false := by simpa using hba
      simp [hf]
      exact ih hl

/-- Helper: the bookkeeping invariant holds after any call sequence. -/
theorem runCalls_goodLoads (oracle : Nat → Bool)
    (calls : List (String × String)) :
    ∀ st : CacheState, goodLoads st → goodLoads (runCalls oracle calls st) := by
  induction calls with
  | nil => intro st h; simpa [runCalls] using h
  | cons c rest ih =>
    intro st h
    have hstep := get_translator_goodLoads oracle c.1 c.2 st h
    simpa [runCalls, List.foldl] using ih _ hstep

/-- C5 (confirmed): a resident engine is returned immediately with no
state change; once a call has handed out an engine, every later call for
the pair returns the same model and tokenizer ids with no further state
change; and over any call sequence from process start, each pair is
model-constructed at most once. -/
theorem engine_loaded_once :
    (∀ (oracle : Nat → Bool) (s t : String) (st : CacheState) (m tok : Nat),
      (s, t) ∈ supportedPairs →
      dictLookup st.model_cache (s, t) = some m →
      dictLookup st.tokenizer_cache (s, t) = some tok →
      get_translator oracle s t st = (.engines m tok, st)) ∧
    (∀ (oracle oracle2 : Nat → Bool) (s t : String) (st st1 : CacheState)
      (m tok : Nat),
      get_translator oracle s t st = (.engines m tok, st1) →
      get_translator oracle2 s t st1 = (.engines m tok, st1)) ∧
    (∀ (oracle : Nat → Bool) (calls : List (String × String))
      (key : String × String),
      (runCalls oracle calls initState).modelLoads.count key ≤ 1) := by
  refine ⟨get_translator_resident, get_translator_stable, ?_⟩
  intro oracle calls key
  have hinit : goodLoads initState := by
    constructor
    · simp [initState]
    · intro k hk; simp [initState] at hk
  have hgood := runCalls_goodLoads oracle calls initState hinit
  exact count_le_one_of_nodup _ hgood.1 key

/-- C5 witness: the three parts evaluated on concrete cache states for
the pair (en, uk). -/
theorem engine_loaded_once_witness :
    get_translator (fun _ => true) "en" "uk"
        ⟨[(("en", "uk"), 5)], [(("en", "uk"), 4)], 6, [("en", "uk")]⟩ =
      (.engines 5 4,
        ⟨[(("en", "uk"), 5)], [(("en", "uk"), 4)], 6, [("en", "uk")]⟩) ∧
    get_translator (fun _ => false) "en" "uk"
        (loadedState "en" "uk" initState) =
      (.engines 1 0, loadedState "en" "uk" initState) ∧
    (runCalls (fun _ => true) [("en", "uk"), ("en", "uk")]
        initState).modelLoads.count ("en", "uk") ≤ 1 := by
  refine ⟨engine_loaded_once.1 (fun _ => true) "en" "uk" _ 5 4
      (by decide) (by decide) (by decide),
    engine_loaded_once.2.1 (fun _ => true) (fun _ => false) "en" "uk"
      initState _ 1 0 (by decide),
    engine_loaded_once.2.2 (fun _ => true) [("en", "uk"), ("en", "uk")]
      ("en", "uk")⟩

/-- C10 (confirmed): the key sets of both caches stay inside the
supported-pairs set and every cached model has its cached tokenizer,
at process start and across every `get_translator` call. -/
theorem cache_invariant_preserved :
    cacheInv initState ∧
    (∀ (oracle : Nat → Bool) (s t : String) (st : CacheState),
      cacheInv st → cacheInv (get_translator oracle s t st).2) := by
  constructor
  · refine ⟨?_, ?_, ?_⟩ <;> intro k hk <;> simp [initState, dictKeys] at hk
  · intro oracle s t st h
    obtain ⟨hmo, hto, hmt⟩ := h
    cases hname : dictLookup translation_models (s, t) with
    | none => simp only [get_translator, hname]; exact ⟨hmo, hto, hmt⟩
    | some name =>
      have hsup : (s, t) ∈ supportedPairs := by
        rw [supportedPairs, ← dictLookup_isSome_iff, hname]; simp
      cases hm : dictLookup st.model_cache (s, t) with
      | some m0 =>
        cases htok : dictLookup st.tokenizer_cache (s, t) with
        | some tok0 =>
          simp only [get_translator, hname, hm, htok]; exact ⟨hmo, hto, hmt⟩
        | none =>
          simp only [get_translator, hname, hm, htok]; exact ⟨hmo, hto, hmt⟩
      | none =>
        simp only [get_translator, hname, hm]
        by_cases h1 : oracle st.nextId = true
        · rw [if_pos h1]
          by_cases h2 : oracle (st.nextId + 1) = true
          · rw [if_pos h2]
            refine ⟨?_, ?_, ?_⟩
            · intro k hk
              rcases List.mem_cons.mp hk with rfl | hk1
              · exact hsup
              · exact hmo k hk1
            · intro k hk
              rcases List.mem_cons.mp hk with rfl | hk1
              · exact hsup
              · exact hto k hk1
            · intro k hk
              rcases List.mem_cons.mp hk with rfl | hk1
              · exact List.mem_cons_self _ _
              · exact List.mem_cons_of_mem _ (hmt k hk1)
          · rw [if_neg h2]
            refine ⟨hmo, ?_, ?_⟩
            · intro k hk
              rcases List.mem_cons.mp hk with rfl | hk1
              · exact hsup
              · exact hto k hk1
            · intro k hk
              exact List.mem_cons_of_mem _ (hmt k hk)
        · rw [if_neg h1]; exact ⟨hmo, hto, hmt⟩

/-- C10 witness: the invariant after a fresh successful load of (en, uk)
on the empty cache. -/
theorem cache_invariant_preserved_witness :
    cacheInv (get_translator (fun _ => true) "en" "uk" initState).2 :=
  cache_invariant_preserved.2 (fun _ => true) "en" "uk" initState
    cache_invariant_preserved.1

/-! ## Selection events: deliveries and failure paths (C2, C7, C9) -/

/-- Helper: a selection whose engine resolves runs the translation once
and sends exactly one private message to the clicking user. -/
theorem button_handler_success (oracle : Nat → Bool)
    (translate : Nat → Nat → String → String) (q : CallbackQuery)
    (st st1 : CacheState) (a s t txt : String) (m tok : Nat)
    (hd : RequestToken_decode q.data = .fields a s t)
    (ho : q.original_text = some txt)
    (hg : get_translator oracle s t st = (.engines m tok, st1)) :
    ∃ msg, button_handler oracle translate q st =
      ⟨.completed, [.answerQuery (.user q.from_user_id),
        .sendMessage (.user q.from_user_id) msg],
        [((s, t), txt)], st1⟩ := by
  simp only [button_handler, hd, ho, hg]
  exact ⟨_, rfl⟩

/-- Helper: when `get_translator` raises, the exception escapes the
handler: no alert, no message, no translation. -/
theorem button_handler_raised (oracle : Nat → Bool)
    (translate : Nat → Nat → String → String) (q : CallbackQuery)
    (st st1 : CacheState) (a s t txt : String)
    (hd : RequestToken_decode q.data = .fields a s t)
    (ho : q.original_text = some txt)
    (hg : get_translator oracle s t st = (.raised, st1)) :
    button_handler oracle translate q st =
      ⟨.raisedOut, [.answerQuery (.user q.from_user_id)], [], st1⟩ := by
  simp only [button_handler, hd, ho, hg]

/-- C2 (corrected): in the two-rapid-clicks scenario of the claim, the
translation is executed twice — once per click — not at most once.  The
engine is still loaded only once, so only the "translation executed at
most once" conjunct fails. -/
theorem two_clicks_counterexample :
    (button_handler (fun _ => true) (fun _ _ s => s)
        ⟨"translate|en|uk", 1, some "hello", none, 7⟩
        initState).translations_run = [(("en", "uk"), "hello")] ∧
    (button_handler (fun _ => true) (fun _ _ s => s)
        ⟨"translate|en|uk", 2, some "hello", none, 7⟩
        (button_handler (fun _ => true) (fun _ _ s => s)
          ⟨"translate|en|uk", 1, some "hello", none, 7⟩
          initState).state).translations_run = [(("en", "uk"), "hello")] ∧
    ¬ (button_handler (fun _ => true) (fun _ _ s => s)
          ⟨"translate|en|uk", 1, some "hello", none, 7⟩
          initState).translations_run.length +
        (button_handler (fun _ => true) (fun _ _ s => s)
          ⟨"translate|en|uk", 2, some "hello", none, 7⟩
          (button_handler (fun _ => true) (fun _ _ s => s)
            ⟨"translate|en|uk", 1, some "hello", none, 7⟩
            initState).state).translations_run.length ≤ 1 := by
  decide

/-- C2 (amended): for two rapid selections of the same valid token for a
not-yet-loaded supported pair, the engine is loaded exactly once, by the
first click; the translation is executed once per click (twice in total);
and each click receives its own private delivery. -/
theorem two_clicks_amended (translate : Nat → Nat → String → String)
    (s t txt1 txt2 : String) (a b mid1 mid2 : Nat) (cu1 cu2 : Option String)
    (st : CacheState)
    (hsup : (s, t) ∈ supportedPairs)
    (hm : dictLookup st.model_cache (s, t) = none) :
    ∃ msg1 msg2,
      button_handler (fun _ => true) translate
          ⟨RequestToken_encode s t, a, some txt1, cu1, mid1⟩ st =
        ⟨.completed, [.answerQuery (.user a), .sendMessage (.user a) msg1],
          [((s, t), txt1)], loadedState s t st⟩ ∧
      button_handler (fun _ => true) translate
          ⟨RequestToken_encode s t, b, some txt2, cu2, mid2⟩
          (loadedState s t st) =
        ⟨.completed, [.answerQuery (.user b), .sendMessage (.user b) msg2],
          [((s, t), txt2)], loadedState s t st⟩ ∧
      (loadedState s t st).modelLoads = st.modelLoads ++ [(s, t)] := by
  have hd := decode_encode_of_mem s t hsup
  have hg1 := get_translator_fresh s t st hsup hm
  obtain ⟨msg1, h1⟩ := button_handler_success (fun _ => true) translate
    ⟨RequestToken_encode s t, a, some txt1, cu1, mid1⟩ st
    (loadedState s t st) "translate" s t txt1 (st.nextId + 1) st.nextId
    hd rfl hg1
  have hg2 : get_translator (fun _ => true) s t (loadedState s t st) =
      (.engines (st.nextId + 1) st.nextId, loadedState s t st) :=
    get_translator_resident (fun _ => true) s t (loadedState s t st)
      (st.nextId + 1) st.nextId hsup (by simp [loadedState, dictLookup])
      (by simp [loadedState, dictLookup])
  obtain ⟨msg2, h2⟩ := button_handler_success (fun _ => true) translate
    ⟨RequestToken_encode s t, b, some txt2, cu2, mid2⟩ (loadedState s t st)
    (loadedState s t st) "translate" s t txt2 (st.nextId + 1) st.nextId
    hd rfl hg2
  exact ⟨msg1, msg2, h1, h2, rfl⟩

/-- C2 witness: the amended two-clicks property at the pair (en, uk) from
the empty cache, clickers 1 and 2. -/
theorem two_clicks_amended_witness :
    ∃ msg1 msg2,
      button_handler (fun _ => true) (fun _ _ s => s)
          ⟨RequestToken_encode "en" "uk", 1, some "hello", none, 7⟩
          initState =
        ⟨.completed, [.answerQuery (.user 1), .sendMessage (.user 1) msg1],
          [(("en", "uk"), "hello")], loadedState "en" "uk" initState⟩ ∧
      button_handler (fun _ => true) (fun _ _ s => s)
          ⟨RequestToken_encode "en" "uk", 2, some "world", none, 8⟩
          (loadedState "en" "uk" initState) =
        ⟨.completed, [.answerQuery (.user 2), .sendMessage (.user 2) msg2],
          [(("en", "uk"), "world")], loadedState "en" "uk" initState⟩ ∧
      (loadedState "en" "uk" initState).modelLoads =
        initState.modelLoads ++ [("en", "uk")] :=
  two_clicks_amended (fun _ _ s => s) "en" "uk" "hello" "world" 1 2 7 8
    none none initState (by decide) (by decide)

/-- C7 (corrected): on an engine-load failure for a supported pair, the
router does not notify the clicking actor at all — the exception escapes
the handler and the only effect is the indicator dismissal — refuting the
claim that every engine-unavailable selection yields a transient error
notice to the clicker. -/
theorem engine_unavailable_counterexample :
    ("en", "uk") ∈ supportedPairs ∧
      (button_handler (fun _ => false) (fun _ _ s => s)
          ⟨"translate|en|uk", 9, some "hi", none, 3⟩ initState).outcome =
        .raisedOut ∧
      (button_handler (fun _ => false) (fun _ _ s => s)
          ⟨"translate|en|uk", 9, some "hi", none, 3⟩ initState).effects =
        [.answerQuery (.user 9)] := by
  decide

/-- C7 (amended): an unsupported pair yields exactly one transient alert
to the clicking actor with the cache unchanged; a load failure makes the
exception escape the handler with no notification to anyone, but the
model cache is never poisoned — it is unchanged by either failure mode
(the tokenizer-then-model order can leave a tokenizer entry behind), and
a later call for the pair retries the load and succeeds. -/
theorem engine_unavailable_amended :
    (∀ (oracle : Nat → Bool) (translate : Nat → Nat → String → String)
      (q : CallbackQuery) (st : CacheState) (a s t txt : String),
      RequestToken_decode q.data = .fields a s t →
      q.original_text = some txt →
      (s, t) ∉ supportedPairs →
      button_handler oracle translate q st =
        ⟨.completed, [.answerQuery (.user q.from_user_id),
          .answerAlert (.user q.from_user_id)
            "No model available for this language pair."],
          [], st⟩) ∧
    (∀ (translate : Nat → Nat → String → String) (q : CallbackQuery)
      (st : CacheState) (a s t txt : String),
      RequestToken_decode q.data = .fields a s t →
      q.original_text = some txt →
      (s, t) ∈ supportedPairs →
      dictLookup st.model_cache (s, t) = none →
      button_handler (fun _ => false) translate q st =
        ⟨.raisedOut, [.answerQuery (.user q.from_user_id)], [],
          { st with nextId := st.nextId + 1 }⟩) ∧
    (∀ (translate : Nat → Nat → String → String) (q : CallbackQuery)
      (st : CacheState) (a s t txt : String),
      RequestToken_decode q.data = .fields a s t →
      q.original_text = some txt →
      (s, t) ∈ supportedPairs →
      dictLookup st.model_cache (s, t) = none →
      button_handler (fun n => decide (n = st.nextId)) translate q st =
        ⟨.raisedOut, [.answerQuery (.user q.from_user_id)], [],
          { st with
            tokenizer_cache := ((s, t), st.nextId) :: st.tokenizer_cache,
            nextId := st.nextId + 2 }⟩) ∧
    (∀ (s t : String) (st : CacheState),
      (s, t) ∈ supportedPairs →
      dictLookup st.model_cache (s, t) = none →
      ∃ m tok, get_translator (fun _ => true) s t st =
        (.engines m tok, loadedState s t st)) := by
  refine ⟨button_handler_not_supported, ?_, ?_, ?_⟩
  · intro translate q st a s t txt hd ho hsup hm
    obtain ⟨name, hname⟩ := dictLookup_mem_some translation_models (s, t) hsup
    simp only [button_handler, hd, ho, get_translator, hname, hm]
    simp
  · intro translate q st a s t txt hd ho hsup hm
    obtain ⟨name, hname⟩ := dictLookup_mem_some translation_models (s, t) hsup
    simp only [button_handler, hd, ho, get_translator, hname, hm]
    simp [Nat.succ_ne_self]
  · intro s t st hsup hm
    exact ⟨st.nextId + 1, st.nextId, get_translator_fresh s t st hsup hm⟩

/-- C7 witness: the amended behaviour at concrete inputs — unsupported
pair (en, es) alerts the clicker only; a failing load for (en, uk) raises
with no notice; the retry from the post-failure state succeeds. -/
theorem engine_unavailable_amended_witness :
    button_handler (fun _ => true) (fun _ _ s => s)
        ⟨"translate|en|es", 4, some "hey", none, 2⟩ initState =
      ⟨.completed, [.answerQuery (.user 4),
        .answerAlert (.user 4)
          "No model available for this language pair."],
        [], initState⟩ ∧
    button_handler (fun _ => false) (fun _ _ s => s)
        ⟨"translate|en|uk", 4, some "hey", none, 2⟩ initState =
      ⟨.raisedOut, [.answerQuery (.user 4)], [],
        { initState with nextId := initState.nextId + 1 }⟩ ∧
    (∃ m tok, get_translator (fun _ => true) "en" "uk"
        { initState with nextId := initState.nextId + 1 } =
      (.engines m tok,
        loadedState "en" "uk" { initState with nextId := initState.nextId + 1 })) :=
  ⟨engine_unavailable_amended.1 (fun _ => true) (fun _ _ s => s)
      ⟨"translate|en|es", 4, some "hey", none, 2⟩ initState
      "translate" "en" "es" "hey" (by decide) rfl (by decide),
    engine_unavailable_amended.2.1 (fun _ _ s => s)
      ⟨"translate|en|uk", 4, some "hey", none, 2⟩ initState
      "translate" "en" "uk" "hey" (by decide) rfl (by decide) (by decide),
    engine_unavailable_amended.2.2.2 "en" "uk"
      { initState with nextId := initState.nextId + 1 }
      (by decide) (by decide)⟩

/-- C9 (confirmed): every effect a selection event produces — the
indicator dismissal, any alert, and any result message — is addressed to
the clicking user alone, never to the shared conversation. -/
theorem handler_delivers_privately (oracle : Nat → Bool)
    (translate : Nat → Nat → String → String) (q : CallbackQuery)
    (st : CacheState) :
    (∀ e ∈ (button_handler oracle translate q st).effects,
      e.recipient = .user q.from_user_id) ∧
    (∀ e ∈ (button_handler oracle translate q st).effects,
      e.recipient ≠ .sharedConversation) := by
  have hmain : ∀ e ∈ (button_handler oracle translate q st).effects,
      e.recipient = .user q.from_user_id := by
    intro e he
    rcases hd : RequestToken_decode q.data with _ | ⟨a, s, t⟩
    · simp only [button_handler, hd, List.mem_cons,
        List.not_mem_nil, or_false] at he
      rcases he with rfl | rfl <;> rfl
    · rcases ho : q.original_text with _ | txt
      · simp only [button_handler, hd, ho, List.mem_cons,
          List.not_mem_nil, or_false] at he
        rcases he with rfl | rfl <;> rfl
      · rcases hg : get_translator oracle s t st with ⟨res, st1⟩
        cases res with
        | noModel =>
          simp only [button_handler, hd, ho, hg, List.mem_cons,
            List.not_mem_nil, or_false] at he
          rcases he with rfl | rfl <;> rfl
        | raised =>
          simp only [button_handler, hd, ho, hg, List.mem_cons,
            List.not_mem_nil, or_false] at he
          subst he
          rfl
        | engines m tok =>
          simp only [button_handler, hd, ho, hg, List.mem_cons,
            List.not_mem_nil, or_false] at he
          rcases he with rfl | rfl <;> rfl
  refine ⟨hmain, ?_⟩
  intro e he
  rw [hmain e he]
  simp

/-- C9 witness: a delivered effect of a concrete selection, addressed to
clicker 5. -/
theorem handler_delivers_privately_witness :
    (Effect.answerQuery (.user 5)).recipient = .user 5 :=
  (handler_delivers_privately (fun _ => true) (fun _ _ s => s)
    ⟨"translate|en|uk", 5, some "abc", none, 1⟩ initState).1
    (Effect.answerQuery (.user 5)) (by decide)

end LinguistBot
